import Mathlib

/-
Verification of jwlib/arguments.py: the settings store, the predefined
argument registry, the coercion actions and the token-scanning parse loop.

The Settings class, the registry table built in ArgumentParser.__init__,
add_predefined, add_arguments, parse_args and the coercion functions
(verify_language, print_language, the lambdas) are embedded from the
source.  The token-matching loop itself lives in the Python standard
library (argparse), outside this repository; it is modelled from the
specification of the Activator/Parser algorithm (spec section 4.4),
parameterised by the registry data taken from the source.
-/

set_option autoImplicit false

deriving instance DecidableEq for Except

namespace JwArgs

/-- Python values that can appear in the settings store: strings, ints,
booleans, None, tuples of strings and lists of strings. -/
inductive Value where
  | vNone
  | vStr (s : String)
  | vInt (n : Int)
  | vBool (b : Bool)
  | vStrTuple (xs : List String)
  | vStrList (xs : List String)
  deriving DecidableEq, Repr

/-- Failures surfaced by the embedded code: AttributeError from
Settings, KeyError from dict access, ValueError from coercions,
TypeError from ill-typed operations, and the parser-level token
errors of the scanning algorithm. -/
inductive PyError where
  | attributeError (key : String)
  | keyError (key : String)
  | valueError (msg : String)
  | typeError
  | missingValue (flag : String)
  | unrecognized (tok : String)
  | invalidChoice (dest : String)
  deriving DecidableEq, Repr

/-- First-match association-list lookup, the model of Python dict and
attribute lookup used throughout. -/
def alookup {α : Type} (m : List (String × α)) (k : String) : Option α :=
  match m with
  | [] => none
  | (k', v) :: rest => if k' = k then some v else alookup rest k

/-- The class attributes of Settings with their defaults, in source
order (arguments.py lines 47-84). -/
def settingsDefaults : List (String × Value) :=
  [ ("work_dir", .vStr "."),
    ("quiet", .vInt 0),
    ("list_languages", .vBool false),
    ("lang", .vStr "E"),
    ("quality", .vInt 1080),
    ("hard_subtitles", .vBool false),
    ("min_date", .vNone),
    ("include_categories", .vStrTuple ["VideoOnDemand"]),
    ("exclude_categories", .vStrTuple []),
    ("keep_free", .vInt 0),
    ("warning", .vBool true),
    ("download", .vBool false),
    ("download_subtitles", .vBool false),
    ("friendly_subtitle_filenames", .vBool false),
    ("curl_path", .vStr "curl"),
    ("rate_limit", .vStr "1M"),
    ("checksums", .vBool true),
    ("command", .vNone),
    ("stream_forever", .vBool false),
    ("sub_dir", .vStr ""),
    ("mode", .vNone),
    ("safe_filenames", .vBool false),
    ("include_keyname", .vBool false),
    ("clean_all_symlinks", .vBool false) ]

/-- The declared field names of the settings store. -/
def settingsFields : List String := settingsDefaults.map Prod.fst

/-- A Settings instance: the instance attribute dictionary.  Class
attributes (the defaults) are consulted by getattr when an instance
attribute is absent.  Attribute machinery inherited from object
(dunder names) is outside the model. -/
structure Settings where
  attrs : List (String × Value)
  deriving DecidableEq, Repr

/-- Python getattr on a Settings instance: instance dict first, then
the class attributes. -/
def Settings.getattr (s : Settings) (k : String) : Option Value :=
  match alookup s.attrs k with
  | some v => some v
  | none => alookup settingsDefaults k

/-- Settings.__setattr__ (arguments.py lines 86-89): getattr first, so
an assignment to a name with no existing attribute raises
AttributeError; otherwise the instance attribute is (over)written. -/
def Settings.setattr (s : Settings) (k : String) (v : Value) : Except PyError Settings :=
  match s.getattr k with
  | some _ => .ok ⟨(k, v) :: s.attrs⟩
  | none => .error (.attributeError k)

/-- A freshly constructed Settings() instance. -/
def settingsInit : Settings := ⟨[]⟩

theorem alookup_eq_none {α : Type} (m : List (String × α)) (k : String)
    (h : ∀ p ∈ m, p.1 ≠ k) : alookup m k = none := by
  induction m with
  | nil => rfl
  | cons p rest ih =>
    obtain ⟨k', v⟩ := p
    have hk : k' ≠ k := h (k', v) (List.mem_cons_self _ _)
    simp only [alookup, if_neg hk]
    exact ih fun q hq => h q (List.mem_cons_of_mem _ hq)

theorem alookup_isSome_of_mem {α : Type} (m : List (String × α)) (k : String)
    (h : k ∈ m.map Prod.fst) : (alookup m k).isSome := by
  induction m with
  | nil => simp at h
  | cons p rest ih =>
    obtain ⟨k', v⟩ := p
    by_cases hk : k' = k
    · simp [alookup, hk]
    · simp only [List.map_cons, List.mem_cons] at h
      rcases h with h | h
      · exact absurd h.symm hk
      · simpa [alookup, hk] using ih h

theorem getattr_cons_self (attrs : List (String × Value)) (k : String) (v : Value) :
    (Settings.mk ((k, v) :: attrs)).getattr k = some v := by
  simp [Settings.getattr, alookup]

theorem getattr_cons_ne (attrs : List (String × Value)) (k f : String) (v : Value)
    (h : k ≠ f) :
    (Settings.mk ((k, v) :: attrs)).getattr f = (Settings.mk attrs).getattr f := by
  simp [Settings.getattr, alookup, if_neg h]

/-- If a field is declared (has a class default), setattr always
succeeds and prepends to the instance dict. -/
theorem setattr_ok (s : Settings) (k : String) (v : Value) (d : Value)
    (h : alookup settingsDefaults k = some d) :
    s.setattr k v = .ok ⟨(k, v) :: s.attrs⟩ := by
  unfold Settings.setattr Settings.getattr
  cases ha : alookup s.attrs k <;> simp [ha, h]

theorem setattr_ok_attrs (s s' : Settings) (k : String) (v : Value)
    (h : s.setattr k v = .ok s') : s' = ⟨(k, v) :: s.attrs⟩ := by
  unfold Settings.setattr at h
  cases hg : s.getattr k <;> simp [hg] at h
  exact h.symm

theorem getattr_setattr_ne (s s' : Settings) (k f : String) (v : Value)
    (h : s.setattr k v = .ok s') (hf : f ≠ k) : s'.getattr f = s.getattr f := by
  rw [setattr_ok_attrs s s' k v h]
  cases s with
  | mk attrs => exact getattr_cons_ne attrs k f v fun he => hf he.symm

/-- External collaborators of the parse: the remote language list
returned by get_jwb_languages (projected to its codes, the only part
verify_language inspects) and the date conversion done by the time
library for the --since lambda. -/
structure Env where
  remoteCodes : List String
  dateEpoch : String → Except PyError Int

/-- Characters of a decimal numeral folded to its value; models int()
on the digit strings the claims quantify over. -/
def digitsVal (cs : List Char) : Nat :=
  cs.foldl (fun a c => a * 10 + (c.toNat - '0'.toNat)) 0

/-- Python int() restricted to optionally-signed decimal numerals;
other strings raise ValueError, modelled as none. -/
def pyInt (s : String) : Option Int :=
  match s.data with
  | [] => none
  | c :: cs =>
    if c = '-' then
      if cs ≠ [] ∧ cs.all Char.isDigit then some (-(digitsVal cs : Int)) else none
    else if (c :: cs).all Char.isDigit then some (digitsVal (c :: cs)) else none

/-- A raw token is treated as an option string when it starts with a
dash, has at least one more character, and is not shaped like a
negative number (argparse treats negative-number-shaped tokens as
positional since no registered option looks like one). -/
def isOptTok (t : String) : Bool :=
  match t.data with
  | c :: c2 :: cs => c = '-' && !((c2 :: cs).all Char.isDigit)
  | _ => false

/-- verify_language (arguments.py lines 26-33): a code other than E
must occur in the remote list, otherwise ValueError; the code itself
is returned unchanged. -/
def verify_language (remote : List String) (code : String) : Except PyError String :=
  if code = "E" then .ok code
  else if remote.any fun c => c = code then .ok code
  else .error (.valueError (code ++ ": invalid language code"))

/-- The transform functions wrapped by action_factory in the registry
table: verify_language, print_language, and the three lambdas
(MiB scaling, comma splitting, date parsing). -/
inductive Coercion where
  | verifyLang
  | printLangs
  | mibToBytes
  | splitCommas
  | sinceDate
  deriving DecidableEq, Repr

/-- The argparse action of an entry: the default store, the boolean
and constant stores, the occurrence counter, or a CustomAction made
by action_factory. -/
inductive ActKind where
  | store
  | storeTrue
  | storeFalse
  | storeConst
  | count
  | custom (c : Coercion)
  deriving DecidableEq, Repr

/-- Value cardinality of a store or custom entry: the default exactly
one, nargs with a question mark, or argparse REMAINDER. -/
inductive NargsK where
  | one
  | optional
  | remainder
  deriving DecidableEq, Repr

/-- The keyword dictionary stored for one predefined argument,
including the flags key that add_predefined adds and add_arguments
later pops.  Presentation-only keywords (help, metavar) are omitted. -/
structure ArgDef where
  flags : Option (List String) := none
  action : ActKind := .store
  nargs : NargsK := .one
  dest : Option String := none
  const : Option Value := none
  choices : Option (List Value) := none
  toInt : Bool := false
  deriving DecidableEq, Repr

/-- Python dict insertion on an association list: an existing key is
updated in place, a new key is appended. -/
def dictInsert {α : Type} (m : List (String × α)) (k : String) (v : α) :
    List (String × α) :=
  match m with
  | [] => [(k, v)]
  | (k', v') :: rest => if k' = k then (k, v) :: rest else (k', v') :: dictInsert rest k v

theorem alookup_dictInsert_self {α : Type} (m : List (String × α)) (k : String) (v : α) :
    alookup (dictInsert m k v) k = some v := by
  induction m with
  | nil => simp [dictInsert, alookup]
  | cons p rest ih =>
    obtain ⟨k', v'⟩ := p
    by_cases hk : k' = k
    · simp [dictInsert, hk, alookup]
    · simp [dictInsert, hk, alookup, ih]

theorem dictInsert_keys_sub {α : Type} (m : List (String × α)) (k k' : String) (v : α)
    (h : k' ∈ (dictInsert m k v).map Prod.fst) : k' = k ∨ k' ∈ m.map Prod.fst := by
  induction m with
  | nil => simpa [dictInsert] using h
  | cons p rest ih =>
    obtain ⟨k0, v0⟩ := p
    by_cases hk : k0 = k
    · simp only [dictInsert, if_pos hk, List.map_cons, List.mem_cons] at h
      rcases h with h | h
      · exact Or.inl h
      · exact Or.inr (by simp [h])
    · simp only [dictInsert, if_neg hk, List.map_cons, List.mem_cons] at h
      rcases h with h | h
      · exact Or.inr (by simp [h])
      · rcases ih h with h' | h'
        · exact Or.inl h'
        · exact Or.inr (by simp [h'])

theorem dictInsert_keys_nodup {α : Type} (m : List (String × α)) (k : String) (v : α)
    (h : (m.map Prod.fst).Nodup) : ((dictInsert m k v).map Prod.fst).Nodup := by
  induction m with
  | nil => simp [dictInsert]
  | cons p rest ih =>
    obtain ⟨k0, v0⟩ := p
    simp only [List.map_cons, List.nodup_cons] at h
    by_cases hk : k0 = k
    · subst hk
      simpa [dictInsert, List.nodup_cons] using h
    · simp only [dictInsert, if_neg hk, List.map_cons, List.nodup_cons]
      refine ⟨fun hmem => ?_, ih h.2⟩
      rcases dictInsert_keys_sub rest k k0 v hmem with h' | h'
      · exact hk h'
      · exact h.1 h'

/-- An activated argument in the effective grammar, built by
add_argument from a predefined entry: its option strings (empty for a
positional), resolved destination field, action, cardinality and
constraints. -/
structure ArgAction where
  optionStrings : List String
  dest : String
  action : ActKind
  nargs : NargsK
  const : Option Value
  choices : Option (List Value)
  toInt : Bool
  deriving DecidableEq, Repr

/-- Leading dashes of a flag string, dropped for dest derivation. -/
def dropDashes : List Char → List Char
  | '-' :: rest => dropDashes rest
  | cs => cs

/-- Destination field derived from the first flag string when no dest
keyword is given: strip leading dashes, turn dashes into
underscores. -/
def deriveDest (f : String) : String :=
  ⟨(dropDashes f.data).map fun c => if c = '-' then '_' else c⟩

/-- Whether a flag list names a positional (no dash prefix). -/
def startsDash (f : String) : Bool :=
  match f.data with
  | '-' :: _ => true
  | _ => false

/-- add_argument on an activated entry: resolve option strings and the
destination from the keyword dictionary. -/
def mkAction (fl : List String) (d : ArgDef) : ArgAction :=
  { optionStrings := if startsDash (fl.headD "") then fl else []
    dest := d.dest.getD (deriveDest (fl.headD ""))
    action := d.action
    nargs := d.nargs
    const := d.const
    choices := d.choices
    toInt := d.toInt }

/-- The ArgumentParser state: the predefined_arguments dictionary and
the activated argument list.  argument_default is SUPPRESS (line 112),
so the parse never writes defaults into the namespace; this is why
the scan below touches only matched entries. -/
structure Parser where
  predefined : List (String × ArgDef)
  actions : List ArgAction
  deriving DecidableEq, Repr

/-- add_predefined (arguments.py lines 95-96): store the keyword dict,
plus the flags themselves, under the first flag string. -/
def Parser.add_predefined (p : Parser) (flag : String) (aliases : List String)
    (d : ArgDef) : Parser :=
  { p with predefined := dictInsert p.predefined flag { d with flags := some (flag :: aliases) } }

/-- One step of add_arguments (lines 100-103): look the flag up in the
dictionary (KeyError if absent), pop the flags key from that same
stored dict (KeyError if already popped), then add_argument. -/
def addArguments1 (p : Parser) (flag : String) : Except PyError Parser :=
  match alookup p.predefined flag with
  | none => .error (.keyError flag)
  | some d =>
    match d.flags with
    | none => .error (.keyError "flags")
    | some fl =>
      .ok (Parser.mk (dictInsert p.predefined flag { d with flags := none })
        (p.actions ++ [mkAction fl { d with flags := none }]))

/-- add_arguments (arguments.py lines 98-103). -/
def Parser.add_arguments (p : Parser) (flags : List String) : Except PyError Parser :=
  flags.foldlM addArguments1 p

/-- The parser produced by ArgumentParser.__init__ (lines 110-171):
every predefined argument registered in source order. -/
def jwParser : Parser :=
  let p := Parser.mk [] []
  let p := p.add_predefined "--quiet" ["-q"] { action := .count }
  let p := p.add_predefined "--mode" ["-m"]
    { choices := some [.vStr "stdout", .vStr "filesystem", .vStr "m3u",
        .vStr "m3ucompat", .vStr "html"] }
  let p := p.add_predefined "--lang" ["-l"]
    { nargs := .optional, action := .custom .verifyLang }
  let p := p.add_predefined "--languages" [] { action := .custom .printLangs }
  let p := p.add_predefined "--quality" ["-Q"]
    { toInt := true, choices := some [.vInt 240, .vInt 360, .vInt 480, .vInt 720] }
  let p := p.add_predefined "--hard-subtitles" [] { action := .storeTrue }
  let p := p.add_predefined "--no-checksum" []
    { action := .storeFalse, dest := some "checksum" }
  let p := p.add_predefined "--free" []
    { toInt := true, dest := some "keep_free", action := .custom .mibToBytes }
  let p := p.add_predefined "--no-warning" []
    { dest := some "warning", action := .storeFalse }
  let p := p.add_predefined "--category" ["-c"]
    { dest := some "include_categories", action := .custom .splitCommas }
  let p := p.add_predefined "--exclude" []
    { dest := some "exclude_categories", action := .custom .splitCommas }
  let p := p.add_predefined "--latest" []
    { action := .storeConst, const := some (.vStrList ["LatestVideos"]),
      dest := some "include_categories" }
  let p := p.add_predefined "--since" []
    { dest := some "min_date", action := .custom .sinceDate }
  let p := p.add_predefined "--limit-rate" [] { dest := some "rate_limit" }
  let p := p.add_predefined "--curl-path" [] {}
  let p := p.add_predefined "--no-curl" []
    { action := .storeConst, const := some .vNone, dest := some "curl_path" }
  let p := p.add_predefined "--clean-symlinks" []
    { action := .storeTrue, dest := some "clean_all_symlinks" }
  let p := p.add_predefined "--ntfs" []
    { action := .storeTrue, dest := some "safe_filenames" }
  let p := p.add_predefined "--download" ["-d"]
    { nargs := .optional, const := some (.vStr "media"),
      choices := some [.vStr "media", .vStr "subtitles", .vStr "friendly-subtitles"] }
  let p := p.add_predefined "--forever" []
    { action := .storeTrue, dest := some "stream_forever" }
  let p := p.add_predefined "work_dir" [] { nargs := .optional }
  let p := p.add_predefined "command" [] { nargs := .remainder }
  p

/-- Outcome of one matched entry: the settings after its write, a
terminal action ending the process with an exit code, or a failure. -/
inductive StepRes where
  | cont (s : Settings)
  | halt (code : Nat)
  | fail (e : PyError)
  deriving DecidableEq, Repr

/-- Outcome of a coercion function: a value, a terminal exit, or a
raised error. -/
inductive StepValRes where
  | val (v : Value)
  | halt (code : Nat)
  | fail (e : PyError)
  deriving DecidableEq, Repr

/-- Result of the whole scan: the populated settings together with the
destinations written in token order, a Terminate outcome carrying the
untouched settings, or a failure. -/
inductive ParseResult where
  | ok (s : Settings) (writes : List String)
  | term (code : Nat) (s : Settings)
  | err (e : PyError)
  deriving DecidableEq, Repr

/-- Record a destination written before the rest of the scan. -/
def withWrite (d : String) : ParseResult → ParseResult
  | .ok s ws => .ok s (d :: ws)
  | r => r

/-- The type keyword: tokens of an entry with type int go through
int() before any choice check or action. -/
def convertVal (a : ArgAction) (raw : String) : Except PyError Value :=
  if a.toInt then
    match pyInt raw with
    | some n => .ok (.vInt n)
    | none => .error (.valueError (raw ++ ": invalid int value"))
  else .ok (.vStr raw)

/-- The choices keyword: a decoded value outside the enumeration is an
invalid choice. -/
def checkChoices (a : ArgAction) (v : Value) : Bool :=
  match a.choices with
  | none => true
  | some cs => cs.any fun c => c = v

/-- The function wrapped by a CustomAction, applied to the decoded
value before storing (arguments.py lines 12-17): verify_language,
print_language (prints and exits with status 0, never storing), or
one of the lambdas. -/
def applyCustom (env : Env) (c : Coercion) (v : Value) : StepValRes :=
  match c with
  | .verifyLang =>
    match v with
    | .vStr code =>
      match verify_language env.remoteCodes code with
      | .ok c' => .val (.vStr c')
      | .error e => .fail e
    | _ => .fail .typeError
  | .printLangs => .halt 0
  | .mibToBytes =>
    match v with
    | .vInt n => .val (.vInt (n * 1024 * 1024))
    | _ => .fail .typeError
  | .splitCommas =>
    match v with
    | .vStr s => .val (.vStrTuple (s.splitOn ","))
    | _ => .fail .typeError
  | .sinceDate =>
    match v with
    | .vStr s =>
      match env.dateEpoch s with
      | .ok n => .val (.vInt n)
      | .error e => .fail e
    | _ => .fail .typeError

/-- Process one value-taking entry on its raw token (or, when none
follows an optional-one entry, on its declared const): type
conversion, choice check, then the action writes through
Settings.setattr or terminates. -/
def applyEntry (env : Env) (a : ArgAction) (raw : Option String) (s : Settings) : StepRes :=
  let ev : Except PyError Value :=
    match raw with
    | some r => convertVal a r
    | none => .ok (a.const.getD .vNone)
  match ev with
  | .error e => .fail e
  | .ok v =>
    if checkChoices a v then
      match a.action with
      | .custom c =>
        match applyCustom env c v with
        | .val w =>
          match s.setattr a.dest w with
          | .ok s1 => .cont s1
          | .error e => .fail e
        | .halt code => .halt code
        | .fail e => .fail e
      | _ =>
        match s.setattr a.dest v with
        | .ok s1 => .cont s1
        | .error e => .fail e
    else .fail (.invalidChoice a.dest)

/-- The activated optional entry matching a token, by flag alias. -/
def findOpt (opts : List ArgAction) (t : String) : Option ArgAction :=
  opts.find? fun a => a.optionStrings.any fun f => f = t

/-- Modelled from the spec: the Activator/Parser scanning algorithm of
section 4.4 (the token loop lives in the standard argparse library,
outside this repository).  Tokens are consumed left to right; a token
matching an activated optional consumes its values per cardinality; an
unmatched non-option token binds to the next positional; a remainder
positional consumes every remaining token verbatim and stops; writes
go through Settings.setattr of this repository. -/
def scan (env : Env) (opts : List ArgAction) :
    List ArgAction → List String → Settings → ParseResult
  | _, [], s => .ok s []
  | poss, t :: rest, s =>
    match findOpt opts t with
    | some a =>
      match a.action with
      | .storeTrue =>
        match s.setattr a.dest (.vBool true) with
        | .ok s1 => withWrite a.dest (scan env opts poss rest s1)
        | .error e => .err e
      | .storeFalse =>
        match s.setattr a.dest (.vBool false) with
        | .ok s1 => withWrite a.dest (scan env opts poss rest s1)
        | .error e => .err e
      | .storeConst =>
        match s.setattr a.dest (a.const.getD .vNone) with
        | .ok s1 => withWrite a.dest (scan env opts poss rest s1)
        | .error e => .err e
      | .count =>
        match s.getattr a.dest with
        | some (.vInt n) =>
          match s.setattr a.dest (.vInt (n + 1)) with
          | .ok s1 => withWrite a.dest (scan env opts poss rest s1)
          | .error e => .err e
        | some .vNone =>
          match s.setattr a.dest (.vInt 1) with
          | .ok s1 => withWrite a.dest (scan env opts poss rest s1)
          | .error e => .err e
        | none =>
          match s.setattr a.dest (.vInt 1) with
          | .ok s1 => withWrite a.dest (scan env opts poss rest s1)
          | .error e => .err e
        | some _ => .err .typeError
      | _ =>
        match a.nargs with
        | .one =>
          match rest with
          | [] => .err (.missingValue t)
          | v :: rest2 =>
            if isOptTok v then .err (.missingValue t)
            else
              match applyEntry env a (some v) s with
              | .cont s1 => withWrite a.dest (scan env opts poss rest2 s1)
              | .halt code => .term code s
              | .fail e => .err e
        | .optional =>
          match rest with
          | [] =>
            match applyEntry env a none s with
            | .cont s1 => withWrite a.dest (scan env opts poss [] s1)
            | .halt code => .term code s
            | .fail e => .err e
          | v :: rest2 =>
            if isOptTok v then
              match applyEntry env a none s with
              | .cont s1 => withWrite a.dest (scan env opts poss (v :: rest2) s1)
              | .halt code => .term code s
              | .fail e => .err e
            else
              match applyEntry env a (some v) s with
              | .cont s1 => withWrite a.dest (scan env opts poss rest2 s1)
              | .halt code => .term code s
              | .fail e => .err e
        | .remainder =>
          match s.setattr a.dest (.vStrList rest) with
          | .ok s1 => .ok s1 [a.dest]
          | .error e => .err e
    | none =>
      match poss with
      | [] => .err (.unrecognized t)
      | p :: poss2 =>
        match p.nargs with
        | .remainder =>
          match s.setattr p.dest (.vStrList (t :: rest)) with
          | .ok s1 => .ok s1 [p.dest]
          | .error e => .err e
        | _ =>
          if isOptTok t then .err (.unrecognized t)
          else
            match applyEntry env p (some t) s with
            | .cont s1 => withWrite p.dest (scan env opts poss2 rest s1)
            | .halt code => .term code s
            | .fail e => .err e

/-- The activated optional entries of a parser. -/
def Parser.opts (p : Parser) : List ArgAction :=
  p.actions.filter fun a => !a.optionStrings.isEmpty

/-- The activated positional entries of a parser, in activation order. -/
def Parser.poss (p : Parser) : List ArgAction :=
  p.actions.filter fun a => a.optionStrings.isEmpty

/-- parse_args (arguments.py lines 105-108): scan into a fresh
Settings instance and return it. -/
def parse_args (env : Env) (p : Parser) (toks : List String) : ParseResult :=
  scan env p.opts p.poss toks settingsInit

/-- The parser with the given predefined names activated; activation
is assumed to succeed (each claim about it states so separately). -/
def activate (flags : List String) : Parser :=
  match jwParser.add_arguments flags with
  | .ok p => p
  | .error _ => Parser.mk [] []

/-- A concrete environment for witnesses: a remote list holding FR and
SV, and a date oracle that always fails. -/
def envTest : Env :=
  ⟨["FR", "SV"], fun _ => .error (.valueError "date")⟩

theorem getattr_none_of_not_field (s : Settings) (k : String)
    (hwf : ∀ p ∈ s.attrs, p.1 ∈ settingsFields) (hk : k ∉ settingsFields) :
    s.getattr k = none := by
  unfold Settings.getattr
  rw [alookup_eq_none s.attrs k fun p hp he => hk (he ▸ hwf p hp)]
  exact alookup_eq_none settingsDefaults k fun p hp he =>
    hk (he ▸ List.mem_map_of_mem Prod.fst hp)

theorem getattr_isSome_of_field (s : Settings) (k : String) (hk : k ∈ settingsFields) :
    (s.getattr k).isSome := by
  unfold Settings.getattr
  cases ha : alookup s.attrs k with
  | some v => rfl
  | none => exact alookup_isSome_of_mem settingsDefaults k hk

/-- C1: a write to a field name outside the declared set fails with an
AttributeError and never extends the store, while a write to a
declared field overwrites it, so a repeated write to the same field
leaves the value of the last write. -/
theorem setattr_closed_world (s : Settings) (k : String) (v w : Value)
    (hwf : ∀ p ∈ s.attrs, p.1 ∈ settingsFields) :
    (k ∉ settingsFields → s.setattr k v = .error (.attributeError k)) ∧
    (k ∈ settingsFields →
      ∃ s1, s.setattr k v = .ok s1 ∧ s1.getattr k = some v ∧
        ∃ s2, s1.setattr k w = .ok s2 ∧ s2.getattr k = some w) := by
  constructor
  · intro hk
    unfold Settings.setattr
    rw [getattr_none_of_not_field s k hwf hk]
  · intro hk
    obtain ⟨d, hd⟩ := Option.isSome_iff_exists.mp
      (alookup_isSome_of_mem settingsDefaults k hk)
    refine ⟨⟨(k, v) :: s.attrs⟩, setattr_ok s k v d hd, getattr_cons_self s.attrs k v,
      ⟨(k, w) :: (k, v) :: s.attrs⟩, setattr_ok _ k w d hd, getattr_cons_self _ k w⟩

/-- C1 witness: the undeclared name checksum is rejected while the
declared field lang is overwritten twice, keeping the last value. -/
theorem setattr_closed_world_witness :
    settingsInit.setattr "checksum" (.vBool false) = .error (.attributeError "checksum") ∧
    ∃ s1, settingsInit.setattr "lang" (.vStr "FR") = .ok s1 ∧
      s1.getattr "lang" = some (.vStr "FR") ∧
      ∃ s2, s1.setattr "lang" (.vStr "SV") = .ok s2 ∧ s2.getattr "lang" = some (.vStr "SV") :=
  ⟨(setattr_closed_world settingsInit "checksum" (.vBool false) (.vBool false)
      (by intro p hp; simp [settingsInit] at hp)).1 (by decide),
   (setattr_closed_world settingsInit "lang" (.vStr "FR") (.vStr "SV")
      (by intro p hp; simp [settingsInit] at hp)).2 (by decide)⟩

/-- C2: the --no-checksum entry declares dest checksum, a field the
Settings class does not have (the declared field is checksums), so the
parse of a token sequence containing --no-checksum crashes with an
AttributeError instead of storing False into checksums. -/
theorem noChecksum_dest_undeclared (env : Env) :
    parse_args env (activate ["--no-checksum"]) ["--no-checksum"]
      = .err (.attributeError "checksum") ∧
    alookup settingsDefaults "checksum" = none ∧
    alookup settingsDefaults "checksums" = some (.vBool true) := by
  exact ⟨rfl, rfl, rfl⟩

/-- C3 counterexample: registering a second entry under the canonical
name of an existing entry does not fail; it silently replaces the
first entry. -/
theorem register_duplicate_replaces_cex :
    ((Parser.mk [] []).add_predefined "--x" [] { action := .storeTrue }).predefined
      = [("--x", { flags := some ["--x"], action := .storeTrue })] ∧
    (((Parser.mk [] []).add_predefined "--x" [] { action := .storeTrue }).add_predefined
        "--x" [] { action := .storeFalse }).predefined
      = [("--x", { flags := some ["--x"], action := .storeFalse })] := by
  decide

/-- C3 amended: registering under an already-registered canonical name
silently replaces the existing entry (last registration wins) instead
of failing, and the registry still never holds two entries with the
same canonical name. -/
theorem register_last_wins (p : Parser) (flag : String) (fl1 fl2 : List String)
    (d1 d2 : ArgDef) (hnd : (p.predefined.map Prod.fst).Nodup) :
    alookup ((p.add_predefined flag fl1 d1).add_predefined flag fl2 d2).predefined flag
      = some { d2 with flags := some (flag :: fl2) } ∧
    ((((p.add_predefined flag fl1 d1).add_predefined flag fl2 d2).predefined.map
        Prod.fst)).Nodup := by
  refine ⟨alookup_dictInsert_self _ flag _, ?_⟩
  exact dictInsert_keys_nodup _ flag _ (dictInsert_keys_nodup _ flag _ hnd)

/-- C3 amended witness: both conclusions at a concrete duplicate
registration. -/
theorem register_last_wins_witness :
    alookup (((Parser.mk [] []).add_predefined "--x" ["-x"]
        { action := .storeTrue }).add_predefined "--x" [] { action := .storeFalse }).predefined
      "--x" = some { flags := some ["--x"], action := .storeFalse } ∧
    (((((Parser.mk [] []).add_predefined "--x" ["-x"]
        { action := .storeTrue }).add_predefined "--x" []
        { action := .storeFalse }).predefined.map Prod.fst)).Nodup :=
  register_last_wins (Parser.mk [] []) "--x" ["-x"] [] { action := .storeTrue }
    { action := .storeFalse } (by decide)

/-- The argparse action built for the activated --quiet entry. -/
def quietAction : ArgAction :=
  ⟨["--quiet", "-q"], "quiet", .count, .one, none, none, false⟩

/-- C4 counterexample: activating --quiet pops the flags key out of
its registry entry, so the entry changes, and activating it a second
time fails with a KeyError instead of repeating the first activation. -/
theorem activation_mutates_cex :
    alookup jwParser.predefined "--quiet"
      = some { flags := some ["--quiet", "-q"], action := .count } ∧
    jwParser.add_arguments ["--quiet"]
      = .ok (Parser.mk (dictInsert jwParser.predefined "--quiet" { action := .count })
          [quietAction]) ∧
    alookup (dictInsert jwParser.predefined "--quiet" { action := .count }) "--quiet"
      = some { flags := none, action := .count } ∧
    ({ flags := none, action := .count } : ArgDef)
      ≠ { flags := some ["--quiet", "-q"], action := .count } ∧
    (Parser.mk (dictInsert jwParser.predefined "--quiet" { action := .count })
        [quietAction]).add_arguments ["--quiet"]
      = .error (.keyError "flags") := by
  decide

/-- C4 amended: activation mutates the registry, popping the flags key
from the stored entry; after a first activation the entry no longer
holds its flag list, and activating the same name again fails with
KeyError rather than succeeding with the same effect. -/
theorem activation_pops_flags (p : Parser) (flag : String) (d : ArgDef)
    (fl : List String) (h1 : alookup p.predefined flag = some d)
    (h2 : d.flags = some fl) :
    addArguments1 p flag
      = .ok (Parser.mk (dictInsert p.predefined flag { d with flags := none })
          (p.actions ++ [mkAction fl { d with flags := none }])) ∧
    alookup (dictInsert p.predefined flag { d with flags := none }) flag
      = some { d with flags := none } ∧
    addArguments1 (Parser.mk (dictInsert p.predefined flag { d with flags := none })
        (p.actions ++ [mkAction fl { d with flags := none }])) flag
      = .error (.keyError "flags") := by
  refine ⟨?_, alookup_dictInsert_self _ flag _, ?_⟩
  · unfold addArguments1
    rw [h1]
    simp [h2]
  · unfold addArguments1
    simp [alookup_dictInsert_self]

/-- C4 amended witness: the three conclusions at the concrete --quiet
entry of the real registry. -/
theorem activation_pops_flags_witness :
    addArguments1 jwParser "--quiet"
      = .ok (Parser.mk (dictInsert jwParser.predefined "--quiet"
          { flags := none, action := .count })
          (jwParser.actions ++ [mkAction ["--quiet", "-q"] { flags := none, action := .count }])) ∧
    alookup (dictInsert jwParser.predefined "--quiet"
        { flags := none, action := .count }) "--quiet"
      = some { flags := none, action := .count } ∧
    addArguments1 (Parser.mk (dictInsert jwParser.predefined "--quiet"
        { flags := none, action := .count })
        (jwParser.actions ++ [mkAction ["--quiet", "-q"] { flags := none, action := .count }]))
        "--quiet"
      = .error (.keyError "flags") :=
  activation_pops_flags jwParser "--quiet"
    { flags := some ["--quiet", "-q"], action := .count } ["--quiet", "-q"]
    (by decide) rfl

theorem setattr_work_dir (s : Settings) (v : Value) :
    s.setattr "work_dir" v = .ok ⟨("work_dir", v) :: s.attrs⟩ :=
  setattr_ok s _ v _ rfl

theorem setattr_command (s : Settings) (v : Value) :
    s.setattr "command" v = .ok ⟨("command", v) :: s.attrs⟩ :=
  setattr_ok s _ v _ rfl

theorem setattr_lang (s : Settings) (v : Value) :
    s.setattr "lang" v = .ok ⟨("lang", v) :: s.attrs⟩ :=
  setattr_ok s _ v _ rfl

theorem setattr_keep_free (s : Settings) (v : Value) :
    s.setattr "keep_free" v = .ok ⟨("keep_free", v) :: s.attrs⟩ :=
  setattr_ok s _ v _ rfl

theorem setattr_include_categories (s : Settings) (v : Value) :
    s.setattr "include_categories" v = .ok ⟨("include_categories", v) :: s.attrs⟩ :=
  setattr_ok s _ v _ rfl

/-- The effective grammar of activating only --languages. -/
theorem acts_languages :
    (activate ["--languages"]).opts
        = [⟨["--languages"], "languages", .custom .printLangs, .one, none, none, false⟩] ∧
    (activate ["--languages"]).poss = [] := by
  decide

/-- C5: when the --languages terminal action fires on its token (the
entry consumes one value token), the scan ends with a successful
Terminate outcome of exit code 0 and the settings store is exactly
what it was before: nothing is written. -/
theorem languages_terminal_no_write (env : Env) (v : String) (rest : List String)
    (s0 : Settings) (hv : isOptTok v = false) :
    jwParser.add_arguments ["--languages"] = .ok (activate ["--languages"]) ∧
    scan env (activate ["--languages"]).opts (activate ["--languages"]).poss
      ("--languages" :: v :: rest) s0 = .term 0 s0 := by
  refine ⟨by decide, ?_⟩
  rw [acts_languages.1, acts_languages.2]
  simp [scan, findOpt, hv, applyEntry, convertVal, checkChoices, applyCustom]

/-- C5 witness: the terminal action at a concrete invocation leaves
the fresh store untouched. -/
theorem languages_terminal_no_write_witness :
    scan envTest (activate ["--languages"]).opts (activate ["--languages"]).poss
      ["--languages", "x"] settingsInit = .term 0 settingsInit :=
  (languages_terminal_no_write envTest "x" [] settingsInit (by decide)).2

/-- The effective grammar of activating work_dir and command. -/
theorem acts_work_command :
    (activate ["work_dir", "command"]).opts = [] ∧
    (activate ["work_dir", "command"]).poss
      = [⟨[], "work_dir", .store, .optional, none, none, false⟩,
         ⟨[], "command", .store, .remainder, none, none, false⟩] := by
  decide

/-- C6: with work_dir and command activated, the first non-option
token binds work_dir and the remainder positional consumes every
following token verbatim, flag-shaped or not; in particular the
spec scenario parses to work_dir /tmp/out and command [mpv, --fs]. -/
theorem remainder_consumes_verbatim (env : Env) (v r : String) (rest : List String)
    (s0 : Settings) (hv : isOptTok v = false) :
    jwParser.add_arguments ["work_dir", "command"] = .ok (activate ["work_dir", "command"]) ∧
    scan env (activate ["work_dir", "command"]).opts (activate ["work_dir", "command"]).poss
        (v :: r :: rest) s0
      = .ok ⟨("command", .vStrList (r :: rest)) :: ("work_dir", .vStr v) :: s0.attrs⟩
          ["work_dir", "command"] ∧
    parse_args env (activate ["work_dir", "command"]) ["/tmp/out", "mpv", "--fs"]
      = .ok ⟨[("command", .vStrList ["mpv", "--fs"]), ("work_dir", .vStr "/tmp/out")]⟩
          ["work_dir", "command"] ∧
    (Settings.mk [("command", .vStrList ["mpv", "--fs"]), ("work_dir", .vStr "/tmp/out")]).getattr
        "work_dir" = some (.vStr "/tmp/out") ∧
    (Settings.mk [("command", .vStrList ["mpv", "--fs"]), ("work_dir", .vStr "/tmp/out")]).getattr
        "command" = some (.vStrList ["mpv", "--fs"]) := by
  refine ⟨by decide, ?_, by rfl, by decide, by decide⟩
  rw [acts_work_command.1, acts_work_command.2]
  simp [scan, findOpt, hv, applyEntry, convertVal, checkChoices,
    setattr_work_dir, setattr_command, withWrite]

/-- C6 witness: the general statement applied at the concrete spec
scenario. -/
theorem remainder_consumes_verbatim_witness :
    scan envTest (activate ["work_dir", "command"]).opts
        (activate ["work_dir", "command"]).poss ["/tmp/out", "mpv", "--fs"] settingsInit
      = .ok ⟨[("command", .vStrList ["mpv", "--fs"]), ("work_dir", .vStr "/tmp/out")]⟩
          ["work_dir", "command"] :=
  (remainder_consumes_verbatim envTest "/tmp/out" "mpv" ["--fs"] settingsInit
    (by decide)).2.1

/-- The effective grammar of activating only --lang. -/
theorem acts_lang :
    (activate ["--lang"]).opts
        = [⟨["--lang", "-l"], "lang", .custom .verifyLang, .optional, none, none, false⟩] ∧
    (activate ["--lang"]).poss = [] := by
  decide

theorem verify_language_valid (remote : List String) (code : String)
    (h : code = "E" ∨ code ∈ remote) : verify_language remote code = .ok code := by
  unfold verify_language
  rcases h with h | h
  · simp [h]
  · by_cases hE : code = "E"
    · simp [hE]
    · have : (remote.any fun c => c = code) = true := by
        simp only [List.any_eq_true, decide_eq_true_eq]
        exact ⟨code, h, rfl⟩
      simp [hE, this]

theorem verify_language_invalid (remote : List String) (code : String)
    (hE : code ≠ "E") (hm : code ∉ remote) :
    verify_language remote code = .error (.valueError (code ++ ": invalid language code")) := by
  unfold verify_language
  have : (remote.any fun c => c = code) = false := by
    simp only [List.any_eq_false, decide_eq_true_eq]
    intro x hx he
    exact hm (he ▸ hx)
  simp [hE, this]

/-- C7: verify_language returns the code unchanged exactly when it is
E or occurs in the remote list; with --lang activated, a token whose
code is outside the list fails the parse with the invalid-code
ValueError, while a valid code is stored into lang unchanged. -/
theorem lang_code_validation (env : Env) (code : String) (hc : isOptTok code = false) :
    jwParser.add_arguments ["--lang"] = .ok (activate ["--lang"]) ∧
    (verify_language env.remoteCodes code = .ok code ↔
      (code = "E" ∨ code ∈ env.remoteCodes)) ∧
    (code ≠ "E" → code ∉ env.remoteCodes →
      parse_args env (activate ["--lang"]) ["--lang", code]
        = .err (.valueError (code ++ ": invalid language code"))) ∧
    ((code = "E" ∨ code ∈ env.remoteCodes) →
      parse_args env (activate ["--lang"]) ["--lang", code]
        = .ok ⟨[("lang", .vStr code)]⟩ ["lang"]) := by
  refine ⟨by decide, ⟨fun hok => ?_, verify_language_valid env.remoteCodes code⟩, ?_, ?_⟩
  · by_cases hE : code = "E"
    · exact Or.inl hE
    · by_cases hm : code ∈ env.remoteCodes
      · exact Or.inr hm
      · rw [verify_language_invalid env.remoteCodes code hE hm] at hok
        exact absurd hok (by simp)
  · intro hE hm
    unfold parse_args
    rw [acts_lang.1, acts_lang.2]
    simp [scan, findOpt, hc, applyEntry, convertVal, checkChoices, applyCustom,
      verify_language_invalid env.remoteCodes code hE hm]
  · intro hvalid
    unfold parse_args
    rw [acts_lang.1, acts_lang.2]
    simp [scan, findOpt, hc, applyEntry, convertVal, checkChoices, applyCustom,
      verify_language_valid env.remoteCodes code hvalid, setattr_lang, withWrite,
      settingsInit]

/-- C7 witness: with a remote list holding FR and SV, the code XX is
rejected by the parse and the code FR is stored unchanged. -/
theorem lang_code_validation_witness :
    parse_args envTest (activate ["--lang"]) ["--lang", "XX"]
      = .err (.valueError ("XX" ++ ": invalid language code")) ∧
    parse_args envTest (activate ["--lang"]) ["--lang", "FR"]
      = .ok ⟨[("lang", .vStr "FR")]⟩ ["lang"] :=
  ⟨(lang_code_validation envTest "XX" (by decide)).2.2.1 (by decide) (by decide),
   (lang_code_validation envTest "FR" (by decide)).2.2.2 (Or.inr (by decide))⟩

theorem pyInt_not_optTok (tok : String) (n : Int) (h : pyInt tok = some n) :
    isOptTok tok = false := by
  cases htok : tok.data with
  | nil => simp [pyInt, htok] at h
  | cons c cs =>
    cases cs with
    | nil => simp [isOptTok, htok]
    | cons c2 cs2 =>
      simp only [pyInt, htok] at h
      simp only [isOptTok, htok]
      by_cases hc : c = '-'
      · subst hc
        by_cases hdig : ((c2 :: cs2).all Char.isDigit : Bool)
        · simp [hdig]
        · simp [hdig] at h
      · simp [hc]

/-- The effective grammar of activating only --free. -/
theorem acts_free :
    (activate ["--free"]).opts
        = [⟨["--free"], "keep_free", .custom .mibToBytes, .one, none, none, true⟩] ∧
    (activate ["--free"]).poss = [] := by
  decide

/-- C9: with --free activated, a token that int() reads as the
non-negative integer n parses successfully and stores
keep_free = n * 1024 * 1024, the exact MiB-to-bytes scaling. -/
theorem free_scales_mib (env : Env) (tok : String) (n : Int)
    (h : pyInt tok = some n) (_hn : 0 ≤ n) :
    jwParser.add_arguments ["--free"] = .ok (activate ["--free"]) ∧
    parse_args env (activate ["--free"]) ["--free", tok]
      = .ok ⟨[("keep_free", .vInt (n * 1024 * 1024))]⟩ ["keep_free"] := by
  refine ⟨by decide, ?_⟩
  have hopt := pyInt_not_optTok tok n h
  unfold parse_args
  rw [acts_free.1, acts_free.2]
  simp [scan, findOpt, hopt, applyEntry, convertVal, h, checkChoices, applyCustom,
    setattr_keep_free, withWrite, settingsInit]

/-- C9 witness: parsing --free 100 stores 100 mebibytes in bytes. -/
theorem free_scales_mib_witness :
    parse_args envTest (activate ["--free"]) ["--free", "100"]
      = .ok ⟨[("keep_free", .vInt 104857600)]⟩ ["keep_free"] :=
  (free_scales_mib envTest "100" 100 (by decide) (by decide)).2

/-- The argparse action built for the activated --latest entry. -/
def latestA : ArgAction :=
  ⟨["--latest"], "include_categories", .storeConst, .one,
    some (.vStrList ["LatestVideos"]), none, false⟩

/-- The argparse action built for the activated --category entry. -/
def categoryA : ArgAction :=
  ⟨["--category", "-c"], "include_categories", .custom .splitCommas, .one,
    none, none, false⟩

/-- The effective grammar of activating --latest and --category. -/
theorem acts_latest_category :
    (activate ["--latest", "--category"]).opts = [latestA, categoryA] ∧
    (activate ["--latest", "--category"]).poss = [] := by
  decide

/-- A token directive aimed at include_categories: either --latest or
--category with its argument. -/
inductive CatOp where
  | latest
  | category (arg : String)
  deriving DecidableEq, Repr

/-- The raw tokens a directive contributes to the input. -/
def catTok : CatOp → List String
  | .latest => ["--latest"]
  | .category a => ["--category", a]

/-- The token sequence of a directive list. -/
def catToks : List CatOp → List String
  | [] => []
  | op :: rest => catTok op ++ catToks rest

/-- The value a directive writes into include_categories: the constant
list for --latest, the comma-split tuple for --category. -/
def catVal : CatOp → Value
  | .latest => .vStrList ["LatestVideos"]
  | .category a => .vStrTuple (a.splitOn ",")

/-- A directive whose argument token is not option-shaped. -/
def catArgOk : CatOp → Bool
  | .latest => true
  | .category a => !isOptTok a

theorem scan_catop_step (env : Env) (op : CatOp) (ts : List String) (s : Settings)
    (hok : catArgOk op = true) :
    scan env [latestA, categoryA] [] (catTok op ++ ts) s
      = withWrite "include_categories"
          (scan env [latestA, categoryA] [] ts
            ⟨("include_categories", catVal op) :: s.attrs⟩) := by
  cases op with
  | latest =>
    simp [catTok, catVal, scan, findOpt, latestA, categoryA, setattr_include_categories]
  | category a =>
    have ha : isOptTok a = false := by simpa [catArgOk] using hok
    simp [catTok, catVal, scan, findOpt, latestA, categoryA, ha, applyEntry,
      convertVal, checkChoices, applyCustom, setattr_include_categories]

theorem scan_cat_last_wins (env : Env) :
    ∀ (ops : List CatOp) (s : Settings), ops ≠ [] → (∀ op ∈ ops, catArgOk op = true) →
      ∃ s1 ws, scan env [latestA, categoryA] [] (catToks ops) s = .ok s1 ws ∧
        s1.getattr "include_categories" = (ops.getLast?).map catVal := by
  intro ops
  induction ops with
  | nil => intro s hne _; exact absurd rfl hne
  | cons op rest ih =>
    intro s _ hok
    have hop : catArgOk op = true := hok op (List.mem_cons_self _ _)
    rw [show catToks (op :: rest) = catTok op ++ catToks rest from rfl,
      scan_catop_step env op _ s hop]
    cases rest with
    | nil =>
      refine ⟨⟨("include_categories", catVal op) :: s.attrs⟩, ["include_categories"], ?_, ?_⟩
      · rw [show catToks [] = [] from rfl]
        simp [scan, withWrite]
      · simp [getattr_cons_self]
    | cons op2 rest2 =>
      obtain ⟨s1, ws, hscan, hget⟩ :=
        ih ⟨("include_categories", catVal op) :: s.attrs⟩ (by simp)
          (fun o ho => hok o (List.mem_cons_of_mem _ ho))
      refine ⟨s1, "include_categories" :: ws, ?_, ?_⟩
      · rw [hscan]
        rfl
      · rw [hget, List.getLast?_cons_cons]

/-- C8: with --latest and --category both activated on their shared
destination include_categories, any nonempty sequence of their
directives parses successfully and the stored value is the one
produced by the directive whose token appears last in the input. -/
theorem same_dest_last_write_wins (env : Env) (ops : List CatOp)
    (hne : ops ≠ []) (hok : ∀ op ∈ ops, catArgOk op = true) :
    jwParser.add_arguments ["--latest", "--category"]
      = .ok (activate ["--latest", "--category"]) ∧
    ∃ s1 ws, parse_args env (activate ["--latest", "--category"]) (catToks ops)
        = .ok s1 ws ∧
      s1.getattr "include_categories" = (ops.getLast?).map catVal := by
  refine ⟨by decide, ?_⟩
  unfold parse_args
  rw [acts_latest_category.1, acts_latest_category.2]
  exact scan_cat_last_wins env ops settingsInit hne hok

/-- C8 witness: --latest followed by --category A,B stores the
comma-split tuple of the later token. -/
theorem same_dest_last_write_wins_witness :
    ∃ s1 ws, parse_args envTest (activate ["--latest", "--category"])
        (catToks [CatOp.latest, CatOp.category "A,B"]) = .ok s1 ws ∧
      s1.getattr "include_categories"
        = (([CatOp.latest, CatOp.category "A,B"]).getLast?).map catVal :=
  (same_dest_last_write_wins envTest [CatOp.latest, CatOp.category "A,B"]
    (by decide) (by decide)).2

theorem withWrite_ok (d : String) (r : ParseResult) (s1 : Settings) (ws : List String)
    (h : withWrite d r = .ok s1 ws) : ∃ ws0, r = .ok s1 ws0 ∧ ws = d :: ws0 := by
  cases r with
  | ok s w =>
    simp only [withWrite] at h
    injection h with h1 h2
    exact ⟨w, by rw [h1], h2.symm⟩
  | term c s => exact absurd h (by simp [withWrite])
  | err e => exact absurd h (by simp [withWrite])

theorem applyEntry_cont_attrs (env : Env) (a : ArgAction) (raw : Option String)
    (s s' : Settings) (h : applyEntry env a raw s = .cont s') :
    ∃ w, s' = ⟨(a.dest, w) :: s.attrs⟩ := by
  unfold applyEntry at h
  dsimp only at h
  repeat' split at h
  all_goals cases h
  all_goals exact ⟨_, setattr_ok_attrs _ _ _ _ (by assumption)⟩

theorem applyEntry_cont_getattr (env : Env) (a : ArgAction) (raw : Option String)
    (s s' : Settings) (h : applyEntry env a raw s = .cont s') (f : String)
    (hf : f ≠ a.dest) : s'.getattr f = s.getattr f := by
  obtain ⟨w, hw⟩ := applyEntry_cont_attrs env a raw s s' h
  rw [hw]
  exact getattr_cons_ne s.attrs a.dest f w fun he => hf he.symm

theorem scan_ok_frame (env : Env) (opts : List ArgAction) :
    ∀ (N : Nat) (toks : List String) (poss : List ArgAction) (s s1 : Settings)
      (ws : List String), toks.length ≤ N → scan env opts poss toks s = .ok s1 ws →
      (∀ f, f ∉ ws → s1.getattr f = s.getattr f) ∧
      (∀ w ∈ ws, w ∈ (opts ++ poss).map ArgAction.dest) := by
  intro N
  induction N with
  | zero =>
    intro toks poss s s1 ws hlen hscan
    cases toks with
    | nil =>
      simp only [scan] at hscan
      cases hscan
      exact ⟨fun f _ => rfl, fun w hw => absurd hw (List.not_mem_nil w)⟩
    | cons t rest => simp at hlen
  | succ N ihN =>
    intro toks poss s s1 ws hlen hscan
    cases toks with
    | nil =>
      simp only [scan] at hscan
      cases hscan
      exact ⟨fun f _ => rfl, fun w hw => absurd hw (List.not_mem_nil w)⟩
    | cons t rest =>
      have hrest : rest.length ≤ N := by simp at hlen; omega
      have step : ∀ (d : String) (possX : List ArgAction) (restX : List String)
          (sX : Settings), restX.length ≤ N → (∀ q ∈ possX, q ∈ poss) →
          (∀ f, f ≠ d → sX.getattr f = s.getattr f) →
          d ∈ (opts ++ poss).map ArgAction.dest →
          withWrite d (scan env opts possX restX sX) = .ok s1 ws →
          (∀ f, f ∉ ws → s1.getattr f = s.getattr f) ∧
          (∀ w ∈ ws, w ∈ (opts ++ poss).map ArgAction.dest) := by
        intro d possX restX sX hlenX hsub hstep hd hw
        obtain ⟨ws0, hscan0, hws⟩ := withWrite_ok d _ s1 ws hw
        obtain ⟨hf0, hm0⟩ := ihN restX possX sX s1 ws0 hlenX hscan0
        subst hws
        constructor
        · intro f hf
          have hfd : f ≠ d := fun he => hf (he ▸ List.mem_cons_self d ws0)
          rw [hf0 f fun hin => hf (List.mem_cons_of_mem d hin), hstep f hfd]
        · intro w hwmem
          rcases List.mem_cons.mp hwmem with he | hin
          · exact he ▸ hd
          · rcases List.mem_map.mp (hm0 w hin) with ⟨q, hq, hqd⟩
            rcases List.mem_append.mp hq with h1 | h2
            · exact hqd ▸ List.mem_map_of_mem _ (List.mem_append_left _ h1)
            · exact hqd ▸ List.mem_map_of_mem _ (List.mem_append_right _ (hsub q h2))
      cases poss
      all_goals first
      | rw [scan.eq_2] at hscan
      | rw [scan.eq_3] at hscan
      all_goals repeat' split at hscan
      all_goals try cases hscan
      all_goals try
        (constructor
         · intro f hf
           first
           | exact getattr_setattr_ne _ _ _ f _ (by assumption) (by simpa using hf)
           | exact applyEntry_cont_getattr _ _ _ _ _ (by assumption) f (by simpa using hf)
         · intro w hw
           have hwd := List.mem_singleton.mp hw
           subst hwd
           first
           | exact List.mem_map_of_mem _ (List.mem_append_left _
               (List.mem_of_find?_eq_some (by assumption)))
           | exact List.mem_map_of_mem _ (List.mem_append_right _
               (List.mem_cons_self _ _)))
      all_goals first
      | exact step _ _ _ _ hrest
          (fun q hq => hq)
          (fun f hf => getattr_setattr_ne _ _ _ f _ (by assumption) hf)
          (List.mem_map_of_mem _ (List.mem_append_left _
            (List.mem_of_find?_eq_some (by assumption)))) hscan
      | exact step _ _ _ _
          (by first
            | exact hrest
            | (simp only [List.length_cons] at hrest; omega))
          (fun q hq => hq)
          (fun f hf => applyEntry_cont_getattr _ _ _ _ _ (by assumption) f hf)
          (List.mem_map_of_mem _ (List.mem_append_left _
            (List.mem_of_find?_eq_some (by assumption)))) hscan
      | exact step _ _ _ _ hrest
          (fun q hq => List.mem_cons_of_mem _ hq)
          (fun f hf => applyEntry_cont_getattr _ _ _ _ _ (by assumption) f hf)
          (List.mem_map_of_mem _ (List.mem_append_right _
            (List.mem_cons_self _ _))) hscan

/-- C10: a successful parse into a fresh store reports the
destinations it wrote; every declared field outside that list still
reads its constructed class default (in particular an activated entry
matched by no token writes nothing, never a None), and every written
destination belongs to an activated entry. -/
theorem unmatched_fields_keep_defaults (env : Env) (opts poss : List ArgAction)
    (toks : List String) (s1 : Settings) (ws : List String)
    (h : scan env opts poss toks settingsInit = .ok s1 ws) :
    (∀ f, f ∉ ws → s1.getattr f = alookup settingsDefaults f) ∧
    (∀ w ∈ ws, w ∈ (opts ++ poss).map ArgAction.dest) := by
  obtain ⟨hframe, hmem⟩ :=
    scan_ok_frame env opts toks.length toks poss settingsInit s1 ws (Nat.le_refl _) h
  refine ⟨fun f hf => ?_, hmem⟩
  rw [hframe f hf]
  rfl

/-- C10 witness: parsing only --hard-subtitles with work_dir also
activated writes exactly hard_subtitles; the untouched lang keeps its
default and the write belongs to the activated entries. -/
theorem unmatched_fields_keep_defaults_witness :
    (Settings.mk [("hard_subtitles", .vBool true)]).getattr "lang"
        = alookup settingsDefaults "lang" ∧
    "hard_subtitles" ∈ (((activate ["--hard-subtitles", "work_dir"]).opts
        ++ (activate ["--hard-subtitles", "work_dir"]).poss).map ArgAction.dest) :=
  ⟨(unmatched_fields_keep_defaults envTest (activate ["--hard-subtitles", "work_dir"]).opts
      (activate ["--hard-subtitles", "work_dir"]).poss ["--hard-subtitles"]
      ⟨[("hard_subtitles", .vBool true)]⟩ ["hard_subtitles"] (by decide)).1
      "lang" (by decide),
   (unmatched_fields_keep_defaults envTest (activate ["--hard-subtitles", "work_dir"]).opts
      (activate ["--hard-subtitles", "work_dir"]).poss ["--hard-subtitles"]
      ⟨[("hard_subtitles", .vBool true)]⟩ ["hard_subtitles"] (by decide)).2
      "hard_subtitles" (by decide)⟩

end JwArgs
